import Mathlib

/-!
# Verification of the tamper-evident credential protocol

A shallow embedding, in Lean 4, of the credential subsystem of the
`certificate_gen_ver` repository (`certificate_generator.py` and
`verify_tool.py`), together with theorems settling the specification
claims about it.

Conventions of the embedding:

* Python strings are modelled as Lean `String` (sequences of Unicode
  scalar values).  Python byte strings are `List Nat` with every entry
  below 256.
* Python `None` for an optional string is `Option.none`; a present
  string `s` is `some s`.  Python truthiness of an optional string
  (`if token:`) is `none` and `some ""` both falsy.
* `os.getenv("CERT_SECRET", d)` is modelled by an explicit
  `certSecretEnv : Option String` argument threaded through the
  functions that consult the environment.
* `json.dumps(data, sort_keys=True)` (default separators `", "`/`": "`,
  `ensure_ascii=True`) and `json.dumps(payload, separators=(',',':'))`
  are modelled over an explicit `Json` value type below.
* `json.loads` is modelled by `parseJsonStr`; exceptions raised by the
  Python parser are modelled as `Option.none`.
-/

set_option maxRecDepth 4096

/-! ## Bytes, hex digits and UTF-8 -/

/-- Reduction of a natural number to a 32-bit word, `n % 2^32`. -/
def w32 (n : Nat) : Nat := n % 4294967296

/-- Lower-case hexadecimal digit for `n % 16`, as produced by Python's
`hexdigest` and by `json.dumps` `\uXXXX` escapes. -/
def hexDigitChar (n : Nat) : Char :=
  if n < 10 then Char.ofNat (48 + n) else Char.ofNat (87 + n % 16)

/-- Two lower-case hex digits of a byte. -/
def hexByte (b : Nat) : List Char :=
  [hexDigitChar (b / 16 % 16), hexDigitChar (b % 16)]

/-- Lower-case hex string of a byte list (Python `hexdigest`). -/
def hexOfBytes (bs : List Nat) : String :=
  String.mk (bs.map hexByte).flatten

/-- Four lower-case hex digits of `n % 2^16` (the `XXXX` of a JSON
`\uXXXX` escape). -/
def hexQuadChars (n : Nat) : List Char :=
  [hexDigitChar (n / 4096 % 16), hexDigitChar (n / 256 % 16),
   hexDigitChar (n / 16 % 16), hexDigitChar (n % 16)]

/-- UTF-8 encoding of one Unicode scalar value (Python `str.encode`). -/
def utf8Char (c : Char) : List Nat :=
  let n := c.toNat
  if n < 128 then [n]
  else if n < 2048 then [192 + n / 64, 128 + n % 64]
  else if n < 65536 then [224 + n / 4096, 128 + n / 64 % 64, 128 + n % 64]
  else [240 + n / 262144, 128 + n / 4096 % 64, 128 + n / 64 % 64, 128 + n % 64]

/-- UTF-8 encoding of a string (Python `str.encode()`). -/
def utf8Bytes (s : String) : List Nat :=
  (s.data.map utf8Char).flatten

/-! ## SHA-256 and HMAC-SHA-256

A from-scratch implementation of FIPS 180-4 SHA-256 and RFC 2104 HMAC
over `List Nat` byte strings, modelling Python's `hashlib.sha256` and
`hmac.new(key, msg, hashlib.sha256)`. -/

/-- Right rotation of a 32-bit word. -/
def rotr32 (x n : Nat) : Nat :=
  w32 ((x >>> n) ||| (x <<< (32 - n)))

def shaCh (x y z : Nat) : Nat := (x &&& y) ^^^ ((x ^^^ 4294967295) &&& z)

def shaMaj (x y z : Nat) : Nat := (x &&& y) ^^^ (x &&& z) ^^^ (y &&& z)

def shaBigSigma0 (x : Nat) : Nat := rotr32 x 2 ^^^ rotr32 x 13 ^^^ rotr32 x 22

def shaBigSigma1 (x : Nat) : Nat := rotr32 x 6 ^^^ rotr32 x 11 ^^^ rotr32 x 25

def shaSmallSigma0 (x : Nat) : Nat := rotr32 x 7 ^^^ rotr32 x 18 ^^^ (x >>> 3)

def shaSmallSigma1 (x : Nat) : Nat := rotr32 x 17 ^^^ rotr32 x 19 ^^^ (x >>> 10)

/-- The 64 SHA-256 round constants. -/
def sha256K : List Nat :=
  [1116352408, 1899447441, 3049323471, 3921009573, 961987163, 1508970993,
   2453635748, 2870763221, 3624381080, 310598401, 607225278, 1426881987,
   1925078388, 2162078206, 2614888103, 3248222580, 3835390401, 4022224774,
   264347078, 604807628, 770255983, 1249150122, 1555081692, 1996064986,
   2554220882, 2821834349, 2952996808, 3210313671, 3336571891, 3584528711,
   113926993, 338241895, 666307205, 773529912, 1294757372, 1396182291,
   1695183700, 1986661051, 2177026350, 2456956037, 2730485921, 2820302411,
   3259730800, 3345764771, 3516065817, 3600352804, 4094571909, 275423344,
   430227734, 506948616, 659060556, 883997877, 958139571, 1322822218,
   1537002063, 1747873779, 1955562222, 2024104815, 2227730452, 2361852424,
   2428436474, 2756734187, 3204031479, 3329325298]

/-- The SHA-256 initial hash value. -/
def sha256Init : List Nat :=
  [1779033703, 3144134277, 1013904242, 2773480762,
   1359893119, 2600822924, 528734635, 1541459225]

/-- Split a list into chunks of `n + 1` elements (the last chunk may be
shorter); `fuel` bounds the number of chunks and is instantiated with
the list length. -/
def chunksOfAux (n : Nat) : Nat → List Nat → List (List Nat)
  | 0, _ => []
  | _, [] => []
  | fuel + 1, l => l.take (n + 1) :: chunksOfAux n fuel (l.drop (n + 1))

/-- Split a list into chunks of `n + 1` elements (the last chunk may be
shorter). -/
def chunksOf (n : Nat) (l : List Nat) : List (List Nat) :=
  chunksOfAux n l.length l

/-- Big-endian interpretation of a byte chunk as a machine word. -/
def wordOfBytes (chunk : List Nat) : Nat :=
  chunk.foldl (fun acc b => acc * 256 + b) 0

/-- Big-endian 4-byte encoding of a 32-bit word. -/
def bytesOfWord (w : Nat) : List Nat :=
  [w / 16777216 % 256, w / 65536 % 256, w / 256 % 256, w % 256]

/-- SHA-256 padding: append `0x80`, zero bytes up to 56 mod 64, and the
64-bit big-endian bit length. -/
def sha256Pad (msg : List Nat) : List Nat :=
  let L := msg.length
  let zeros := (120 - (L + 1) % 64) % 64
  let bitLen := 8 * L
  msg ++ [128] ++ List.replicate zeros 0 ++
    [bitLen / 72057594037927936 % 256, bitLen / 281474976710656 % 256,
     bitLen / 1099511627776 % 256, bitLen / 4294967296 % 256,
     bitLen / 16777216 % 256, bitLen / 65536 % 256,
     bitLen / 256 % 256, bitLen % 256]

/-- Extend the 16 message-schedule words to 64.  The accumulator is kept
in reverse order (most recent word first). -/
def sha256Extend : Nat → List Nat → List Nat
  | 0, wsRev => wsRev
  | n + 1, wsRev =>
    let wNew := w32 (shaSmallSigma1 (wsRev.getD 1 0) + wsRev.getD 6 0 +
      shaSmallSigma0 (wsRev.getD 14 0) + wsRev.getD 15 0)
    sha256Extend n (wNew :: wsRev)

/-- The eight 32-bit working variables of the SHA-256 compression. -/
structure Sha256State where
  a : Nat
  b : Nat
  c : Nat
  d : Nat
  e : Nat
  f : Nat
  g : Nat
  hh : Nat
deriving Repr, DecidableEq

/-- One SHA-256 round. -/
def sha256Round (st : Sha256State) (kw : Nat × Nat) : Sha256State :=
  let t1 := w32 (st.hh + shaBigSigma1 st.e + shaCh st.e st.f st.g + kw.1 + kw.2)
  let t2 := w32 (shaBigSigma0 st.a + shaMaj st.a st.b st.c)
  ⟨w32 (t1 + t2), st.a, st.b, st.c, w32 (st.d + t1), st.e, st.f, st.g⟩

/-- Compress one 64-byte block into the running hash (a list of eight
32-bit words). -/
def sha256Compress (hash : List Nat) (block : List Nat) : List Nat :=
  let ws16 := (chunksOf 3 block).map wordOfBytes
  let ws := (sha256Extend 48 ws16.reverse).reverse
  let st0 : Sha256State :=
    ⟨hash.getD 0 0, hash.getD 1 0, hash.getD 2 0, hash.getD 3 0,
     hash.getD 4 0, hash.getD 5 0, hash.getD 6 0, hash.getD 7 0⟩
  let st := (sha256K.zip ws).foldl sha256Round st0
  [w32 (hash.getD 0 0 + st.a), w32 (hash.getD 1 0 + st.b),
   w32 (hash.getD 2 0 + st.c), w32 (hash.getD 3 0 + st.d),
   w32 (hash.getD 4 0 + st.e), w32 (hash.getD 5 0 + st.f),
   w32 (hash.getD 6 0 + st.g), w32 (hash.getD 7 0 + st.hh)]

/-- SHA-256 digest (32 bytes) of a byte string. -/
def sha256 (msg : List Nat) : List Nat :=
  let blocks := chunksOf 63 (sha256Pad msg)
  let final := blocks.foldl sha256Compress sha256Init
  (final.map bytesOfWord).flatten

/-- Lower-case hex SHA-256 digest, Python
`hashlib.sha256(b).hexdigest()`. -/
def sha256Hex (msg : List Nat) : String :=
  hexOfBytes (sha256 msg)

/-- HMAC-SHA-256 (RFC 2104) of a message under a key, as computed by
Python `hmac.new(key, msg, hashlib.sha256)`. -/
def hmacSha256 (key msg : List Nat) : List Nat :=
  let k0 := if 64 < key.length then sha256 key else key
  let k := k0 ++ List.replicate (64 - k0.length) 0
  let ipadKey := k.map (fun b => b ^^^ 54)
  let opadKey := k.map (fun b => b ^^^ 92)
  sha256 (opadKey ++ sha256 (ipadKey ++ msg))

/-- Lower-case hex HMAC-SHA-256 digest (Python `.hexdigest()`). -/
def hmacSha256Hex (key msg : List Nat) : String :=
  hexOfBytes (hmacSha256 key msg)

/-! ## The JSON value model

`Json` models the Python values that flow through `json.dumps` /
`json.loads` in this repository: `None`, booleans, integers, strings,
lists and string-keyed dictionaries (a dictionary is carried as its
association list in construction order).  Float literals do not occur
in the repository's data and are outside the model. -/

inductive Json where
  | null
  | bool (b : Bool)
  | num (n : Int)
  | str (s : String)
  | arr (xs : List Json)
  | obj (fs : List (String × Json))
deriving Repr, Inhabited

/-- `json.dumps` escaping of one character with `ensure_ascii=True`:
`"` and `\` and the named control characters get two-character escapes,
other characters outside `0x20..0x7e` become `\uXXXX` (a surrogate pair
beyond the BMP), and the rest are emitted literally. -/
def jsonEscapeChar (c : Char) : List Char :=
  if c = '"' then ['\\', '"']
  else if c = '\\' then ['\\', '\\']
  else if c = Char.ofNat 8 then ['\\', 'b']
  else if c = Char.ofNat 12 then ['\\', 'f']
  else if c = '\n' then ['\\', 'n']
  else if c = Char.ofNat 13 then ['\\', 'r']
  else if c = '\t' then ['\\', 't']
  else if c.toNat < 32 then '\\' :: 'u' :: hexQuadChars c.toNat
  else if c.toNat < 127 then [c]
  else if c.toNat < 65536 then '\\' :: 'u' :: hexQuadChars c.toNat
  else
    let v := c.toNat - 65536
    '\\' :: 'u' :: hexQuadChars (55296 + v / 1024) ++
      ('\\' :: 'u' :: hexQuadChars (56320 + v % 1024))

/-- The characters of a JSON string literal (including the quotes). -/
def jsonQuoteChars (s : String) : List Char :=
  '"' :: (s.data.map jsonEscapeChar).flatten ++ ['"']

/-- JSON string literal for `s`, as `json.dumps` renders it. -/
def jsonQuote (s : String) : String :=
  String.mk (jsonQuoteChars s)

/-- Code-point lexicographic comparison of character sequences,
Python's `str` `<=`. -/
def charsLe : List Char → List Char → Bool
  | [], _ => true
  | _ :: _, [] => false
  | a :: as, b :: bs =>
    if a.toNat < b.toNat then true
    else if b.toNat < a.toNat then false
    else charsLe as bs

/-- Python string comparison `a <= b` (code-point lexicographic). -/
def pyStrLe (a b : String) : Bool := charsLe a.data b.data

theorem charsLe_total : ∀ a b : List Char, charsLe a b = true ∨ charsLe b a = true := by
  intro a
  induction a with
  | nil => intro b; left; rfl
  | cons x xs ih =>
    intro b
    cases b with
    | nil => right; rfl
    | cons y ys =>
      by_cases h1 : x.toNat < y.toNat
      · left; simp [charsLe, h1]
      · by_cases h2 : y.toNat < x.toNat
        · right; simp [charsLe, h2]
        · rcases ih ys with h | h
          · left; simp [charsLe, h1, h2, h]
          · right; simp [charsLe, h1, h2, h]

theorem charsLe_trans :
    ∀ a b c : List Char, charsLe a b = true → charsLe b c = true →
      charsLe a c = true := by
  intro a
  induction a with
  | nil => intro b c _ _; rfl
  | cons x xs ih =>
    intro b c hab hbc
    cases b with
    | nil => simp [charsLe] at hab
    | cons y ys =>
      cases c with
      | nil => simp [charsLe] at hbc
      | cons z zs =>
        simp only [charsLe] at hab hbc ⊢
        rcases Nat.lt_trichotomy x.toNat y.toNat with h1 | h1 | h1 <;>
          rcases Nat.lt_trichotomy y.toNat z.toNat with h2 | h2 | h2
        all_goals
          first
          | (have hlt : x.toNat < z.toNat := by omega
             simp [hlt])
          | (have e1 : ¬ x.toNat < z.toNat := by omega
             have e2 : ¬ z.toNat < x.toNat := by omega
             have e3 : ¬ x.toNat < y.toNat := by omega
             have e4 : ¬ y.toNat < x.toNat := by omega
             have e5 : ¬ y.toNat < z.toNat := by omega
             have e6 : ¬ z.toNat < y.toNat := by omega
             simp only [e3, e4, if_neg, if_false] at hab
             simp only [e5, e6, if_neg, if_false] at hbc
             simp only [e1, e2, if_neg, if_false]
             exact ih ys zs hab hbc)
          | (exfalso
             first
             | (have e4 : y.toNat < x.toNat := by omega
                have e3 : ¬ x.toNat < y.toNat := by omega
                simp [e3, e4] at hab)
             | (have e6 : z.toNat < y.toNat := by omega
                have e5 : ¬ y.toNat < z.toNat := by omega
                simp [e5, e6] at hbc))

theorem charsLe_antisymm :
    ∀ a b : List Char, charsLe a b = true → charsLe b a = true → a = b := by
  intro a
  induction a with
  | nil =>
    intro b _ hba
    cases b with
    | nil => rfl
    | cons y ys => simp [charsLe] at hba
  | cons x xs ih =>
    intro b hab hba
    cases b with
    | nil => simp [charsLe] at hab
    | cons y ys =>
      simp only [charsLe] at hab hba
      by_cases hxy : x.toNat < y.toNat
      · simp [hxy] at hba
        omega
      · by_cases hyx : y.toNat < x.toNat
        · simp [hxy, hyx] at hab
        · simp [hxy, hyx] at hab hba
          have hx : x.toNat = y.toNat := by omega
          have hc : x = y := by
            have h1 := Char.ofNat_toNat x
            have h2 := Char.ofNat_toNat y
            rw [← h1, ← h2, hx]
          rw [hc, ih ys hab hba]

/-- Key-sorting relation used by `json.dumps(..., sort_keys=True)`:
compare the (string) keys with Python's `<=`, which is code-point
lexicographic. -/
def keyLe (a b : String × String) : Prop := pyStrLe a.1 b.1 = true

instance : DecidableRel keyLe := fun _ _ =>
  inferInstanceAs (Decidable (_ = true))

instance : IsTotal (String × String) keyLe :=
  ⟨fun a b => charsLe_total a.1.data b.1.data⟩

instance : IsTrans (String × String) keyLe :=
  ⟨fun _ _ _ hab hbc => charsLe_trans _ _ _ hab hbc⟩

/-- Sort rendered object members by key.  Python's `sorted` is a stable
sort on the keys; since dictionary keys are pairwise distinct, any
stable sort produces the same sequence, and rendering the values before
or after sorting commutes because the sort only inspects keys. -/
def sortPairs (l : List (String × String)) : List (String × String) :=
  List.insertionSort keyLe l

/-- The item separator `", "` of `json.dumps` default separators. -/
def sepItem : String := ", "

/-- The key separator `": "` of `json.dumps` default separators. -/
def sepKey : String := ": "

/-- A rendered object member, `<quoted key><": "><rendered value>`. -/
def renderMember (p : String × String) : String :=
  jsonQuote p.1 ++ sepKey ++ p.2

mutual

/-- `json.dumps(v, sort_keys=True)` with the default separators
`", "` and `": "` (the encoding hashed by `generate_checksum`).
Object members are rendered and then ordered by `sortPairs`. -/
def Json.encode : Json → String
  | .null => "null"
  | .bool true => "true"
  | .bool false => "false"
  | .num n => toString n
  | .str s => jsonQuote s
  | .arr xs =>
    "[" ++ String.intercalate sepItem (encodeList xs) ++ "]"
  | .obj fs =>
    "\x7b" ++ String.intercalate sepItem
      ((sortPairs (encodeFields fs)).map renderMember) ++ "\x7d"

/-- Rendered elements of a JSON array, in order. -/
def encodeList : List Json → List String
  | [] => []
  | x :: xs => Json.encode x :: encodeList xs

/-- Object members with their values rendered, in construction order. -/
def encodeFields : List (String × Json) → List (String × String)
  | [] => []
  | (k, v) :: fs => (k, Json.encode v) :: encodeFields fs

end

/-- `true` iff the strings in the list are pairwise distinct
(dictionary keys). -/
def nodupKeys : List String → Bool
  | [] => true
  | k :: ks => !(ks.contains k) && nodupKeys ks

mutual

/-- Python dictionary well-formedness: the keys of every object, at
every nesting level, are pairwise distinct. -/
def Json.wf : Json → Bool
  | .null | .bool _ | .num _ | .str _ => true
  | .arr xs => wfList xs
  | .obj fs => nodupKeys (fs.map Prod.fst) && wfFields fs

def wfList : List Json → Bool
  | [] => true
  | x :: xs => Json.wf x && wfList xs

def wfFields : List (String × Json) → Bool
  | [] => true
  | (_, v) :: fs => Json.wf v && wfFields fs

end

/-! ## The checksum (`IntegrityStamper`)

Translations of `HiddenMetadata.generate_checksum`
(`certificate_generator.py` lines 135-149) and the standalone
`generate_checksum` (`verify_tool.py` lines 34-38).  Both take the
modelled `CERT_SECRET` environment value as an explicit argument. -/

/-- The insecure fallback secret baked into both sources. -/
def defaultSecret : String := "default-secret"

namespace HiddenMetadata

/-- `HiddenMetadata.generate_checksum(data, secret=None)`:
HMAC-SHA-256 keyed by the resolved secret over
`json.dumps(data, sort_keys=True)`, hex digest truncated to its first
16 characters. -/
def generate_checksum (data : Json) (secret : Option String)
    (certSecretEnv : Option String) : String :=
  let secret := match secret with
    | none => certSecretEnv.getD defaultSecret
    | some s => s
  let data_str := Json.encode data
  (hmacSha256Hex (utf8Bytes secret) (utf8Bytes data_str)).take 16

end HiddenMetadata

namespace VerifyTool

/-- `generate_checksum(data, secret=None)` from `verify_tool.py`. -/
def generate_checksum (data : Json) (secret : Option String)
    (certSecretEnv : Option String) : String :=
  let secret := match secret with
    | none => certSecretEnv.getD defaultSecret
    | some s => s
  let s := Json.encode data
  (hmacSha256Hex (utf8Bytes secret) (utf8Bytes s)).take 16

end VerifyTool

/-! ## The metadata codec (`MetadataCodec`)

`pack` models `HiddenMetadata.embed_in_pdf_metadata`
(`certificate_generator.py` lines 175-182): the payload dictionary
`{"id": ..., "token_hash": ..., "checksum": ...}` is serialized with
`json.dumps(payload, separators=(',', ':'))` (compact, insertion order,
no key sorting), prefixed with the marker `CertGen|` and truncated to
200 characters after the marker.

`unpack` models `extract_payload_from_pdf` (`verify_tool.py` lines
41-68) from the point where the `Creator` metadata string is in hand. -/

/-- The compact item separator `","`. -/
def sepItemC : String := ","

/-- The compact key separator `":"`. -/
def sepKeyC : String := ":"

/-- A rendered object member with compact separators. -/
def renderMemberC (p : String × String) : String :=
  jsonQuote p.1 ++ sepKeyC ++ p.2

mutual

/-- `json.dumps(v, separators=(',', ':'))`: compact separators, no key
sorting (members in dictionary construction order). -/
def Json.encodeC : Json → String
  | .null => "null"
  | .bool true => "true"
  | .bool false => "false"
  | .num n => toString n
  | .str s => jsonQuote s
  | .arr xs =>
    "[" ++ String.intercalate sepItemC (encodeListC xs) ++ "]"
  | .obj fs =>
    "\x7b" ++ String.intercalate sepItemC
      ((encodeFieldsC fs).map renderMemberC) ++ "\x7d"

def encodeListC : List Json → List String
  | [] => []
  | x :: xs => Json.encodeC x :: encodeListC xs

def encodeFieldsC : List (String × Json) → List (String × String)
  | [] => []
  | (k, v) :: fs => (k, Json.encodeC v) :: encodeFieldsC fs

end

/-- The embedded verification payload: the values of the dictionary
`{"id": ..., "token_hash": ..., "checksum": ...}` built by
`embed_in_pdf_metadata` from `cert_data.get(...)` (each value a string,
or `None` when the looked-up key is missing). -/
structure Payload where
  id : Option String := none
  token_hash : Option String := none
  checksum : Option String := none
deriving Repr, DecidableEq

/-- A possibly-`None` string as a JSON value. -/
def optJson : Option String → Json
  | none => .null
  | some s => .str s

/-- The payload dictionary, in construction order. -/
def Payload.toJson (p : Payload) : Json :=
  .obj [(("id"), optJson p.id), (("token_hash"), optJson p.token_hash),
        (("checksum"), optJson p.checksum)]

/-- `json.dumps(payload, separators=(',', ':'))`. -/
def packPayloadStr (p : Payload) : String :=
  Json.encodeC p.toJson

/-- Python string slicing `s[:n]` (by code points). -/
def pyTake (n : Nat) (s : String) : String :=
  String.mk (s.data.take n)

/-- The fixed marker prefixed to the embedded payload. -/
def certGenMarker : List Char := ['C', 'e', 'r', 't', 'G', 'e', 'n', '|']

/-- `info.creator = f"CertGen|{hidden_str[:200]}"`: the carrier string
written into the PDF `Creator` field. -/
def embedCreator (p : Payload) : String :=
  String.mk certGenMarker ++ pyTake 200 (packPayloadStr p)

/-! ### A model of `json.loads`

A strict recursive-descent parser over code points.  Exceptions of the
Python parser are modelled as `none`.  Deliberate modelling limits,
none of which can occur in data produced by this repository's encoder:
float literals are rejected rather than parsed (the repository's
payloads hold only strings and `null`), lone-surrogate `\uXXXX`
escapes are rejected (a Lean `Char` cannot carry a lone surrogate),
an object is returned as its member list in source order (CPython
keeps the last binding of a duplicated key; `Json.get` below reads the
last binding to preserve dictionary semantics), and nesting deeper
than the fuel bound fails as CPython's recursion limit would. -/

/-- JSON whitespace accepted between tokens. -/
def isJsonWs (c : Char) : Bool :=
  c = ' ' || c = '\t' || c = '\n' || c = Char.ofNat 13

/-- Drop leading JSON whitespace. -/
def skipWs : List Char → List Char
  | [] => []
  | c :: l => if isJsonWs c then skipWs l else c :: l

/-- Value of one hexadecimal digit (either case). -/
def hexDigitVal (c : Char) : Option Nat :=
  let n := c.toNat
  if 48 ≤ n && n ≤ 57 then some (n - 48)
  else if 97 ≤ n && n ≤ 102 then some (n - 87)
  else if 65 ≤ n && n ≤ 70 then some (n - 55)
  else none

/-- Value of a four-hex-digit `\uXXXX` escape body. -/
def hexQuadVal (a b c d : Char) : Option Nat :=
  match hexDigitVal a, hexDigitVal b, hexDigitVal c, hexDigitVal d with
  | some x, some y, some z, some w => some (x * 4096 + y * 256 + z * 16 + w)
  | _, _, _, _ => none

/-- The single-character string escapes `\" \\ \/ \b \f \n \r \t`. -/
def unescapeChar (c : Char) : Option Char :=
  if c = '"' then some '"'
  else if c = '\\' then some '\\'
  else if c = '/' then some '/'
  else if c = 'b' then some (Char.ofNat 8)
  else if c = 'f' then some (Char.ofNat 12)
  else if c = 'n' then some '\n'
  else if c = 'r' then some (Char.ofNat 13)
  else if c = 't' then some '\t'
  else none

mutual

/-- Scan a JSON string body after the opening quote, returning the
decoded characters and the input after the closing quote.  Unescaped
control characters are rejected (CPython strict mode). -/
def parseStringBody : List Char → Option (List Char × List Char)
  | [] => none
  | c :: l =>
    if c = '"' then some ([], l)
    else if c = '\\' then parseStringEsc l
    else if c.toNat < 32 then none
    else (parseStringBody l).map (fun r => (c :: r.1, r.2))

/-- Scan the remainder of a string body after a backslash. -/
def parseStringEsc : List Char → Option (List Char × List Char)
  | [] => none
  | e :: l1 =>
    if e = 'u' then parseStringU l1
    else
      match unescapeChar e with
      | none => none
      | some ch => (parseStringBody l1).map (fun r => (ch :: r.1, r.2))

/-- Scan the remainder of a string body after `\u`: four hex digits,
then possibly a low-surrogate escape to combine with. -/
def parseStringU : List Char → Option (List Char × List Char)
  | a :: b :: c2 :: d :: l2 =>
    match hexQuadVal a b c2 d with
    | none => none
    | some n =>
      if 55296 ≤ n && n ≤ 56319 then parseStringLow n l2
      else if 56320 ≤ n && n ≤ 57343 then none
      else (parseStringBody l2).map (fun r => (Char.ofNat n :: r.1, r.2))
  | _ => none

/-- Scan the low-surrogate escape following a high surrogate `n`. -/
def parseStringLow (n : Nat) : List Char → Option (List Char × List Char)
  | e1 :: e2 :: a2 :: b2 :: c3 :: d2 :: l3 =>
    if e1 = '\\' then
      if e2 = 'u' then
        match hexQuadVal a2 b2 c3 d2 with
        | none => none
        | some m =>
          if 56320 ≤ m && m ≤ 57343 then
            (parseStringBody l3).map (fun r =>
              (Char.ofNat (65536 + (n - 55296) * 1024 + (m - 56320)) :: r.1, r.2))
          else none
      else none
    else none
  | _ => none

end

/-- Consume decimal digits, extending the accumulated value. -/
def parseDigits : List Char → Nat → Nat × List Char
  | [], acc => (acc, [])
  | c :: l, acc =>
    if c.isDigit then parseDigits l (acc * 10 + (c.toNat - 48))
    else (acc, c :: l)

/-- The JSON integer grammar `0 | [1-9][0-9]*` after an optional sign. -/
def parseIntTail : List Char → Option (Nat × List Char)
  | [] => none
  | c :: l =>
    if c = '0' then some (0, l)
    else if c.isDigit then some (parseDigits l (c.toNat - 48))
    else none

/-- Parse a JSON number.  A fraction or exponent part (a float literal)
is outside the model and rejected. -/
def parseNumber (l : List Char) : Option (Json × List Char) :=
  let signed : Bool × List Char :=
    match l with
    | '-' :: t => (true, t)
    | _ => (false, l)
  match parseIntTail signed.2 with
  | none => none
  | some (v, rest) =>
    let stop : Bool :=
      match rest with
      | c :: _ => c = '.' || c = 'e' || c = 'E'
      | [] => false
    if stop then none
    else some (.num (if signed.1 then -(v : Int) else (v : Int)), rest)

def litNull : List Char := ['n', 'u', 'l', 'l']

def litTrue : List Char := ['t', 'r', 'u', 'e']

def litFalse : List Char := ['f', 'a', 'l', 's', 'e']

mutual

/-- Parse one JSON value at the head of the input (no leading
whitespace).  `fuel` bounds the recursion depth. -/
def parseValue : Nat → List Char → Option (Json × List Char)
  | 0, _ => none
  | fuel + 1, l =>
    match l with
    | [] => none
    | c :: rest =>
      if c = '"' then
        (parseStringBody rest).map (fun r => (Json.str (String.mk r.1), r.2))
      else if c = '\x7b' then
        match skipWs rest with
        | [] => none
        | c2 :: r2 =>
          if c2 = '\x7d' then some (.obj [], r2)
          else (parseMembers fuel (c2 :: r2)).map (fun r => (Json.obj r.1, r.2))
      else if c = '[' then
        match skipWs rest with
        | [] => none
        | c2 :: r2 =>
          if c2 = ']' then some (.arr [], r2)
          else (parseElems fuel (c2 :: r2)).map (fun r => (Json.arr r.1, r.2))
      else if litNull.isPrefixOf l then some (.null, l.drop 4)
      else if litTrue.isPrefixOf l then some (.bool true, l.drop 4)
      else if litFalse.isPrefixOf l then some (.bool false, l.drop 5)
      else parseNumber l

/-- Parse the members of an object, positioned at a key (whitespace
already skipped), through the closing brace. -/
def parseMembers : Nat → List Char → Option (List (String × Json) × List Char)
  | 0, _ => none
  | fuel + 1, l =>
    match l with
    | [] => none
    | c :: rest =>
      if c = '"' then
        match parseStringBody rest with
        | none => none
        | some (k, r1) =>
          match skipWs r1 with
          | [] => none
          | c2 :: r3 =>
            if c2 = ':' then
              match parseValue fuel (skipWs r3) with
              | none => none
              | some (v, r4) =>
                match skipWs r4 with
                | [] => none
                | c3 :: r6 =>
                  if c3 = ',' then
                    (parseMembers fuel (skipWs r6)).map
                      (fun r => ((String.mk k, v) :: r.1, r.2))
                  else if c3 = '\x7d' then some ([(String.mk k, v)], r6)
                  else none
            else none
      else none

/-- Parse the elements of an array, positioned at a value (whitespace
already skipped), through the closing bracket. -/
def parseElems : Nat → List Char → Option (List Json × List Char)
  | 0, _ => none
  | fuel + 1, l =>
    match parseValue fuel l with
    | none => none
    | some (v, r1) =>
      match skipWs r1 with
      | [] => none
      | c2 :: r2 =>
        if c2 = ',' then (parseElems fuel (skipWs r2)).map (fun r => (v :: r.1, r.2))
        else if c2 = ']' then some ([v], r2)
        else none

end

/-- `json.loads` on a character sequence: optional surrounding
whitespace, one value, and nothing else. -/
def parseJsonChars (l : List Char) : Option Json :=
  let l1 := skipWs l
  match parseValue (2 * l1.length + 2) l1 with
  | some (v, r) => if (skipWs r).isEmpty then some v else none
  | none => none

/-- `json.loads` on a string. -/
def parseJsonStr (s : String) : Option Json :=
  parseJsonChars s.data

/-- `creator.split('CertGen|', 1)[1]` guarded by
`'CertGen|' in creator`: the suffix after the first occurrence of the
marker, or `none` when the marker is absent. -/
def splitAfterMarker : List Char → Option (List Char)
  | [] => none
  | c :: l =>
    if certGenMarker.isPrefixOf (c :: l) then some (l.drop 7)
    else splitAfterMarker l

/-- Python `str.find` for one character: index of the first occurrence
(`none` models `-1`). -/
def pyFindIdx (p : Char) : List Char → Option Nat
  | [] => none
  | c :: l => if c = p then some 0 else (pyFindIdx p l).map (fun n => n + 1)

/-- Python `str.rfind` for one character: index of the last occurrence
(`none` models `-1`). -/
def pyRFindIdx (p : Char) (l : List Char) : Option Nat :=
  (pyFindIdx p l.reverse).map (fun i => l.length - 1 - i)

/-- `extract_payload_from_pdf` (`verify_tool.py` lines 41-68) from the
point where the `Creator` metadata string is in hand: `none` when the
marker is absent, else a strict parse of the suffix after the marker,
else a re-parse of the first-`{`-to-last-`}` slice, else `none`.  The
Python function can only raise for a missing file or library, both
outside this model; every parse failure is caught. -/
def extract_payload_from_creator (creator : String) : Option Json :=
  match splitAfterMarker creator.data with
  | none => none
  | some raw =>
    match parseJsonChars raw with
    | some payload => some payload
    | none =>
      match pyFindIdx '\x7b' raw, pyRFindIdx '\x7d' raw with
      | some start, some stop =>
        parseJsonChars ((raw.drop start).take (stop + 1 - start))
      | _, _ => none

/-! ## Records and the verification engine

`Credentials` and `Record` model the dictionaries stored by
`generate_certificate` (lines 434-455 and 464-472 of
`certificate_generator.py`): every field that verification reads is a
string or absent.  `record.get(k)` is the corresponding `Option`
field; `record.get("credentials", {}) or {}` is `credentials.getD {}`
(an absent or falsy value both yield the empty dictionary). -/

structure Credentials where
  token_hash : Option String := none
  checksum : Option String := none
deriving Repr, DecidableEq, Inhabited

structure Record where
  certificate_id : Option String := none
  recipient_name : Option String := none
  course_name : Option String := none
  issue_date : Option String := none
  issuer : Option String := none
  generated_at : Option String := none
  credentials : Option Credentials := none
deriving Repr, DecidableEq, Inhabited

/-- Python truthiness of an optional string: `None` and `""` are
falsy. -/
def pyTruthyOpt : Option String → Bool
  | none => false
  | some s => !s.isEmpty

/-- An optional string, or `""` in its absence (used only in positions
the caller has already guarded with truthiness). -/
def strOfOpt : Option String → String
  | none => ""
  | some s => s

/-- `hashlib.sha256(token.encode()).hexdigest()`. -/
def tokenHashHex (token : Option String) : String :=
  sha256Hex (utf8Bytes (strOfOpt token))

/-- The `recompute_data` dictionary rebuilt from a stored record
(`certificate_generator.py` lines 581-588, identically lines 665-672
and 689-696, and `verify_tool.py` lines 139-146, 181-188, 276-283):
the six checksummed fields, each `record.get(...)`, in this
construction order. -/
def recomputeData (r : Record) : Json :=
  .obj [(("certificate_id"), optJson r.certificate_id),
        (("recipient_name"), optJson r.recipient_name),
        (("course_name"), optJson r.course_name),
        (("issue_date"), optJson r.issue_date),
        (("issuer"), optJson r.issuer),
        (("generated_at"), optJson r.generated_at)]

/-- The dictionary returned by `CertificateGenerator.verify_certificate`:
`verified`, an optional `reason`, and on success the echoed fields. -/
structure VerifyResult where
  verified : Bool
  reason : Option String := none
  certificate_id : Option String := none
  recipient_name : Option String := none
  course_name : Option String := none
  issue_date : Option String := none
  issuer : Option String := none
  generated_at : Option String := none
deriving Repr, DecidableEq, Inhabited

/-- `CertificateGenerator.verify_certificate`
(`certificate_generator.py` lines 535-604).  `mongoConnected` models
`self.mongo and self.mongo.connected`; `retrieve` models
`self.mongo.retrieve_certificate`; `certSecretEnv` models the
`CERT_SECRET` environment variable read inside `generate_checksum`. -/
def verifyCertificate (mongoConnected : Bool)
    (retrieve : String → Option Record)
    (certificate_id recipient_name course_name : String)
    (token : Option String) (certSecretEnv : Option String) : VerifyResult :=
  if !mongoConnected then
    { verified := false, reason := some ("MongoDB not available for verification") }
  else
    match retrieve certificate_id with
    | none =>
      { verified := false, reason := some ("Certificate not found in database") }
    | some record =>
      if record.recipient_name ≠ some recipient_name then
        { verified := false, reason := some ("Recipient name mismatch") }
      else if record.course_name ≠ some course_name then
        { verified := false, reason := some ("Course name mismatch") }
      else
        let credentials := record.credentials.getD {}
        let stored_token_hash := credentials.token_hash
        let stored_checksum := credentials.checksum
        if pyTruthyOpt token &&
            (!pyTruthyOpt stored_token_hash ||
              stored_token_hash ≠ some (tokenHashHex token)) then
          { verified := false, reason := some ("Token mismatch") }
        else
          let expected_checksum :=
            HiddenMetadata.generate_checksum (recomputeData record) none certSecretEnv
          if pyTruthyOpt stored_checksum &&
              stored_checksum ≠ some expected_checksum then
            { verified := false,
              reason := some ("Checksum mismatch - data may have been tampered") }
          else
            { verified := true,
              certificate_id := some certificate_id,
              recipient_name := some recipient_name,
              course_name := some course_name,
              issue_date := record.issue_date,
              issuer := record.issuer,
              generated_at := record.generated_at }

/-- Dictionary member access `payload.get(k)`: the value of the last
binding of `k` (CPython dictionary semantics under duplicate keys), or
`None`. -/
def Json.get (j : Json) (k : String) : Option Json :=
  match j with
  | .obj fs => (fs.reverse.find? (fun kv => kv.1 == k)).map Prod.snd
  | _ => none

/-- Python truthiness of a JSON value. -/
def Json.truthy : Json → Bool
  | .null => false
  | .bool b => b
  | .num n => n != 0
  | .str s => !s.isEmpty
  | .arr xs => !xs.isEmpty
  | .obj fs => !fs.isEmpty

/-- Truthiness of `payload.get(k)` (`None` is falsy). -/
def truthyJsonOpt : Option Json → Bool
  | none => false
  | some j => j.truthy

/-- The dictionary returned by `CertificateGenerator.verify_file`:
`verified`, an optional `reason`, the embedded certificate id, and the
`"from"` key naming the source that answered (`db`, `local_store` or
`pdf_metadata_only`). -/
structure FileVerifyResult where
  verified : Bool
  reason : Option String := none
  certificate_id : Option Json := none
  source : Option String := none
deriving Repr, Inhabited

/-- The reason produced when the brace-slice re-parse raises inside
`verify_file` and the outer handler reports `Error reading PDF: {e}`
(the model keeps the fixed prefix of that message). -/
def errorReadingPdf : String := "Error reading PDF"

/-- `CertificateGenerator.verify_file` (`certificate_generator.py`
lines 606-710) from the point where the `Creator` metadata string is in
hand (PyPDF2 present and the file readable; `creator = none` models a
missing `Creator` entry, read as `''`).  `retrieve` and `localRecord`
model `self.mongo.retrieve_certificate` and `self._load_local_record`,
keyed by the embedded id value.  Unlike `extract_payload_from_pdf`,
the brace-slice re-parse here is not guarded by an inner handler, so
its failure surfaces as the outer `Error reading PDF` reason. -/
def verifyFile (creator : Option String) (mongoConnected : Bool)
    (retrieve localRecord : Json → Option Record)
    (token certSecretEnv : Option String) : FileVerifyResult :=
  let afterPayload : Json → FileVerifyResult := fun payload =>
    let cert_id := payload.get ("id")
    let checksum := payload.get ("checksum")
    if !truthyJsonOpt cert_id then
      { verified := false,
        reason := some ("Certificate ID missing in embedded metadata") }
    else
      let cid := cert_id.getD .null
      if mongoConnected then
        match retrieve cid with
        | none =>
          { verified := false, reason := some ("Certificate not found in database") }
        | some record =>
          if pyTruthyOpt token &&
              (record.credentials.getD {}).token_hash ≠ some (tokenHashHex token) then
            { verified := false, reason := some ("Token mismatch") }
          else
            let expected :=
              HiddenMetadata.generate_checksum (recomputeData record) none certSecretEnv
            let stored := (record.credentials.getD {}).checksum
            if pyTruthyOpt stored && stored ≠ some expected then
              { verified := false,
                reason := some ("Checksum mismatch - data differs from DB") }
            else
              { verified := true, certificate_id := some cid, source := some ("db") }
      else
        match localRecord cid with
        | some local_rec =>
          if pyTruthyOpt token &&
              (local_rec.credentials.getD {}).token_hash ≠ some (tokenHashHex token) then
            { verified := false, reason := some ("Token mismatch") }
          else
            let expected_checksum :=
              HiddenMetadata.generate_checksum (recomputeData local_rec) none certSecretEnv
            let stored_checksum := (local_rec.credentials.getD {}).checksum
            if pyTruthyOpt stored_checksum &&
                stored_checksum ≠ some expected_checksum then
              { verified := false,
                reason := some ("Checksum mismatch - data may have been tampered") }
            else
              { verified := true, certificate_id := some cid,
                source := some ("local_store") }
        | none =>
          if truthyJsonOpt checksum then
            { verified := true, certificate_id := some cid,
              source := some ("pdf_metadata_only") }
          else
            { verified := false, reason := some ("Insufficient metadata to verify") }
  match splitAfterMarker (strOfOpt creator).data with
  | none =>
    { verified := false, reason := some ("No embedded certificate metadata found") }
  | some raw =>
    match parseJsonChars raw with
    | some payload => afterPayload payload
    | none =>
      match pyFindIdx '\x7b' raw, pyRFindIdx '\x7d' raw with
      | some start, some stop =>
        match parseJsonChars ((raw.drop start).take (stop + 1 - start)) with
        | some payload => afterPayload payload
        | none => { verified := false, reason := some (errorReadingPdf) }
      | _, _ =>
        { verified := false, reason := some ("Embedded metadata malformed") }

/-- `verify_db` from `verify_tool.py` (lines 223-297), modelled from
the record lookup on: `record` is the result of the Mongo or local
store lookup (lines 234-247), and the returned string is the terminal
message printed by the command. -/
def verifyDb (record : Option Record) (name : String) (course : Option String)
    (token certSecretEnv : Option String) : String :=
  match record with
  | none => "Certificate not found"
  | some record =>
    if record.recipient_name ≠ some name then "Recipient name mismatch"
    else if record.course_name ≠ course then "Course name mismatch"
    else if pyTruthyOpt token &&
        (record.credentials.getD {}).token_hash ≠ some (tokenHashHex token) then
      "Token mismatch"
    else
      let expected :=
        VerifyTool.generate_checksum (recomputeData record) none certSecretEnv
      let stored := (record.credentials.getD {}).checksum
      if pyTruthyOpt stored && stored ≠ some expected then
        "Checksum mismatch - data differs"
      else "✓ Certificate VERIFIED"

/-! ## Claim C3: the checksum contract and secret resolution -/

/-- The secret-resolution order as the specification states it: the
explicit parameter if given, else the process-wide configured
`CERT_SECRET` value, else the fixed fallback constant. -/
def resolveSecretSpec (secret certSecretEnv : Option String) : String :=
  match secret with
  | some s => s
  | none =>
    match certSecretEnv with
    | some e => e
    | none => defaultSecret

/-- C3: for every field set and secret, `checksum(fields, secret)`
equals the first 16 hex characters of HMAC-SHA-256 keyed by the
resolved secret over the canonical encoding of the fields, where the
secret is resolved as: explicit parameter, else the configured
`CERT_SECRET` value, else the fixed fallback constant; the standalone
`verify_tool.py` copy computes the identical function. -/
theorem C3_checksum_contract (data : Json) (secret certSecretEnv : Option String) :
    HiddenMetadata.generate_checksum data secret certSecretEnv
      = (hmacSha256Hex (utf8Bytes (resolveSecretSpec secret certSecretEnv))
          (utf8Bytes (Json.encode data))).take 16
    ∧ VerifyTool.generate_checksum data secret certSecretEnv
      = HiddenMetadata.generate_checksum data secret certSecretEnv := by
  cases secret <;> cases certSecretEnv <;> exact ⟨rfl, rfl⟩

/-! ## Claim C5: end-to-end tamper detection -/

/-- The `cert_data` field set of the C5 scenario at issuance time
(recipient `Alice`, issuer `Authority`, issue date `January 01, 2025`),
in the construction order of `generate_certificate`. -/
def c5IssuanceData : Json := .obj [
  (("certificate_id"), .str ("CERT-20250101-ABCDEF0123456789")),
  (("recipient_name"), .str ("Alice")),
  (("course_name"), .str ("Course")),
  (("issue_date"), .str ("January 01, 2025")),
  (("issuer"), .str ("Authority")),
  (("generated_at"), .str ("2025-01-01T00:00:00"))]

/-- The checksum computed and stored at issuance (no explicit secret,
no `CERT_SECRET` configured). -/
def c5StoredChecksum : String :=
  HiddenMetadata.generate_checksum c5IssuanceData none none

/-- The stored record after tampering: `issue_date` flipped to
`January 02, 2025`, every other field and the stored credentials
unchanged. -/
def c5TamperedRecord : Record := {
  certificate_id := some ("CERT-20250101-ABCDEF0123456789"),
  recipient_name := some ("Alice"),
  course_name := some ("Course"),
  issue_date := some ("January 02, 2025"),
  issuer := some ("Authority"),
  generated_at := some ("2025-01-01T00:00:00"),
  credentials := some { token_hash := none, checksum := some c5StoredChecksum } }

/-- The store after tampering: only the tampered record, under its id. -/
def c5Retrieve : String → Option Record := fun i =>
  if i = "CERT-20250101-ABCDEF0123456789" then some c5TamperedRecord else none

/-- C5: with the checksum stored at issuance over issue date
`January 01, 2025` and the stored record's issue date flipped to
`January 02, 2025`, re-verification recomputes the HMAC over the six
stored fields, finds it different from the stored checksum, and returns
the checksum-mismatch verdict — both in
`CertificateGenerator.verify_certificate` and in `verify_db`. -/
theorem C5_tamper_detected :
    c5StoredChecksum = HiddenMetadata.generate_checksum c5IssuanceData none none
    ∧ verifyCertificate true c5Retrieve
        ("CERT-20250101-ABCDEF0123456789") ("Alice") ("Course") none none
      = { verified := false,
          reason := some ("Checksum mismatch - data may have been tampered") }
    ∧ verifyDb (some c5TamperedRecord) ("Alice") (some ("Course")) none none
      = "Checksum mismatch - data differs" := by
  refine ⟨rfl, by decide, by decide⟩

/-! ## Claim C9: the verdict reason vocabulary -/

/-- The reason-code enum stated by the specification. -/
def specReasonCodes : List String :=
  [("OK"), ("NOT_FOUND"), ("FIELD_MISMATCH"), ("TOKEN_MISMATCH"),
   ("CHECKSUM_MISMATCH"), ("METADATA_ONLY_PRESENT"), ("NO_METADATA"),
   ("STORE_UNREACHABLE")]

/-- The reason strings `verify_certificate` actually produces. -/
def generatorReasons : List String :=
  [("MongoDB not available for verification"),
   ("Certificate not found in database"),
   ("Recipient name mismatch"),
   ("Course name mismatch"),
   ("Token mismatch"),
   ("Checksum mismatch - data may have been tampered")]

/-- The terminal messages `verify_db` actually prints. -/
def verifyDbMessages : List String :=
  [("Certificate not found"),
   ("Recipient name mismatch"),
   ("Course name mismatch"),
   ("Token mismatch"),
   ("Checksum mismatch - data differs"),
   ("✓ Certificate VERIFIED")]

/-- C9 fails on the code: a verification run against an empty store
produces the reason `Certificate not found in database`, which is none
of the eight enum strings the claim says downstream consumers can match
on. -/
theorem C9_counterexample :
    (verifyCertificate true (fun _ => none) ("C1") ("N") ("K") none none).reason
      = some ("Certificate not found in database")
    ∧ ("Certificate not found in database") ∉ specReasonCodes := by
  constructor
  · rfl
  · decide

/-- C9 amended: every verdict of `verify_certificate` either has no
reason (and is positive) or carries a reason drawn from the six
human-readable sentences of `generatorReasons` — not from the spec's
enum — and every terminal message of `verify_db` is drawn from
`verifyDbMessages`. -/
theorem C9_reason_vocabulary (mongoConnected : Bool)
    (retrieve : String → Option Record)
    (cid name course : String) (token env : Option String)
    (record : Option Record) (name2 : String) (course2 token2 env2 : Option String) :
    ((verifyCertificate mongoConnected retrieve cid name course token env).reason = none
      ∧ (verifyCertificate mongoConnected retrieve cid name course token env).verified = true
      ∨ ∃ r ∈ generatorReasons,
          (verifyCertificate mongoConnected retrieve cid name course token env).reason = some r)
    ∧ verifyDb record name2 course2 token2 env2 ∈ verifyDbMessages := by
  constructor
  · unfold verifyCertificate
    cases mongoConnected with
    | false => simp [generatorReasons]
    | true =>
      cases hr : retrieve cid with
      | none => simp [generatorReasons]
      | some record => simp only [Bool.not_true]; split_ifs <;> simp [generatorReasons]
  · unfold verifyDb
    cases record with
    | none => simp [verifyDbMessages]
    | some record => dsimp only; split_ifs <;> simp [verifyDbMessages]

/-! ## Claim C4: strict check order and short-circuit -/

/-- The token check of `verify_certificate`
(`if token: ... if not stored_token_hash or token_hash != stored_token_hash`),
exactly as the code tests it. -/
def tokenCheckFails (record : Record) (token : Option String) : Bool :=
  pyTruthyOpt token && (!pyTruthyOpt (record.credentials.getD {}).token_hash
    || decide ((record.credentials.getD {}).token_hash ≠ some (tokenHashHex token)))

/-- The checksum check of `verify_certificate`
(`if stored_checksum and expected_checksum != stored_checksum`), exactly
as the code tests it. -/
def checksumCheckFails (record : Record) (env : Option String) : Bool :=
  pyTruthyOpt (record.credentials.getD {}).checksum
    && decide ((record.credentials.getD {}).checksum
        ≠ some (HiddenMetadata.generate_checksum (recomputeData record) none env))

/-- C4: `verify_certificate` runs its checks in strict order — lookup,
recipient name, course name, token, checksum — and the first failing
check terminates with its reason.  In particular a record whose
`recipient_name` differs from the claimed name fails with the
field-mismatch reason whatever its stored credentials hold, and the
result is invariant under any change of the stored credentials, so the
checksum comparison is never reached. -/
theorem C4_strict_order (retrieve : String → Option Record)
    (cid name course : String) (token env : Option String) (record : Record) :
    (retrieve cid = none →
      verifyCertificate true retrieve cid name course token env
        = { verified := false, reason := some ("Certificate not found in database") })
    ∧ (retrieve cid = some record → record.recipient_name ≠ some name →
      verifyCertificate true retrieve cid name course token env
        = { verified := false, reason := some ("Recipient name mismatch") })
    ∧ (record.recipient_name ≠ some name →
      ∀ creds1 creds2 : Option Credentials,
        verifyCertificate true
          (fun i => if i = cid then some { record with credentials := creds1 } else none)
          cid name course token env
        = verifyCertificate true
          (fun i => if i = cid then some { record with credentials := creds2 } else none)
          cid name course token env)
    ∧ (retrieve cid = some record → record.recipient_name = some name →
       record.course_name ≠ some course →
      verifyCertificate true retrieve cid name course token env
        = { verified := false, reason := some ("Course name mismatch") })
    ∧ (retrieve cid = some record → record.recipient_name = some name →
       record.course_name = some course → tokenCheckFails record token = true →
      verifyCertificate true retrieve cid name course token env
        = { verified := false, reason := some ("Token mismatch") })
    ∧ (retrieve cid = some record → record.recipient_name = some name →
       record.course_name = some course → tokenCheckFails record token = false →
       checksumCheckFails record env = true →
      verifyCertificate true retrieve cid name course token env
        = { verified := false,
            reason := some ("Checksum mismatch - data may have been tampered") }) := by
  refine ⟨?_, ?_, ?_, ?_, ?_, ?_⟩
  · intro h
    simp [verifyCertificate, h]
  · intro h hn
    simp [verifyCertificate, h, hn]
  · intro hn creds1 creds2
    simp [verifyCertificate, hn]
  · intro h h1 h2
    simp [verifyCertificate, h, h1, h2]
  · intro h h1 h2 h3
    simp only [tokenCheckFails] at h3
    unfold verifyCertificate
    rw [h]
    dsimp only [Bool.not_true]
    rw [if_neg (by simp), if_neg (by simp [h1]), if_neg (by simp [h2]), if_pos h3]
  · intro h h1 h2 h3 h4
    simp only [tokenCheckFails] at h3
    simp only [checksumCheckFails] at h4
    unfold verifyCertificate
    rw [h]
    dsimp only [Bool.not_true]
    rw [if_neg (by simp), if_neg (by simp [h1]), if_neg (by simp [h2]),
      if_neg (by rw [h3]; simp), if_pos h4]

/-- The stored fields of the C4 witness record. -/
def c4Base : Record := {
  certificate_id := some ("CERT-4"),
  recipient_name := some ("Bob"),
  course_name := some ("Chem"),
  issue_date := some ("January 01, 2025"),
  issuer := some ("Auth"),
  generated_at := some ("2025-01-01T00:00:00") }

/-- A stored record whose checksum is correct (recomputed over its own
fields) but whose recipient is `Bob`, not the claimed `Alice`. -/
def c4Record : Record := { c4Base with
  credentials :=
    some ⟨none, some (HiddenMetadata.generate_checksum (recomputeData c4Base) none none)⟩ }

theorem C4_witness :
    (fun _ : String => some c4Record) ("CERT-4") = some c4Record
    ∧ c4Record.recipient_name ≠ some ("Alice")
    ∧ verifyCertificate true (fun _ => some c4Record) ("CERT-4") ("Alice") ("Chem")
        none none
      = { verified := false, reason := some ("Recipient name mismatch") } :=
  ⟨rfl, by decide,
    (C4_strict_order (fun _ => some c4Record) ("CERT-4") ("Alice") ("Chem")
      none none c4Record).2.1 rfl (by decide)⟩

/-! ## Claim C1: degraded verification is promoted to a positive verdict -/

/-- A payload carrying an id, a token hash and a checksum. -/
def c1Payload : Payload :=
  { id := some ("CERT-X"), token_hash := some ("th"),
    checksum := some ("0123456789abcdef") }

/-- The carrier embedded for `c1Payload`. -/
def c1Creator : String := embedCreator c1Payload

/-- C1 fails on the code: with no record store reachable (Mongo down,
local store empty) and only the embedded payload available, including
its checksum, `verify_file` returns `verified = True` — a positive
verdict tagged `"from": "pdf_metadata_only"` — rather than any distinct
non-positive degraded reason. -/
theorem C1_counterexample :
    (verifyFile (some c1Creator) false (fun _ => none) (fun _ => none) none none).verified
      = true
    ∧ (verifyFile (some c1Creator) false (fun _ => none) (fun _ => none) none none).source
      = some ("pdf_metadata_only") := ⟨by decide, by decide⟩

/-- C1 amended: on the store-less path with an embedded checksum the
code returns a positive `verified = True` verdict distinguished only by
the source marker `pdf_metadata_only`; and a stored record whose
credentials contain no checksum verifies positively, the checksum
comparison being skipped. -/
theorem C1_degraded_mode (creator : String) (raw : List Char) (payload : Json)
    (token env : Option String) (retrieve localRecord : Json → Option Record)
    (h1 : splitAfterMarker creator.data = some raw)
    (h2 : parseJsonChars raw = some payload)
    (h3 : truthyJsonOpt (payload.get ("id")) = true)
    (h4 : truthyJsonOpt (payload.get ("checksum")) = true)
    (h5 : localRecord ((payload.get ("id")).getD .null) = none) :
    verifyFile (some creator) false retrieve localRecord token env
      = { verified := true,
          certificate_id := some ((payload.get ("id")).getD .null),
          source := some ("pdf_metadata_only") }
    ∧ ∀ (retrieve2 : String → Option Record) (record : Record)
        (cid2 name2 course2 : String) (env2 : Option String),
        retrieve2 cid2 = some record → record.recipient_name = some name2 →
        record.course_name = some course2 →
        (record.credentials.getD {}).checksum = none →
        (verifyCertificate true retrieve2 cid2 name2 course2 none env2).verified = true := by
  constructor
  · unfold verifyFile
    have hc : strOfOpt (some creator) = creator := rfl
    rw [hc, h1]
    dsimp only
    rw [h2]
    dsimp only
    rw [if_neg (by rw [h3]; simp), if_neg (by simp), h5, if_pos h4]
  · intro retrieve2 record cid2 name2 course2 env2 g1 g2 g3 g4
    unfold verifyCertificate
    rw [g1]
    dsimp only [Bool.not_true]
    rw [if_neg (not_not_intro g2)]
    rw [if_neg (not_not_intro g3)]
    simp [pyTruthyOpt, g4]

/-- The character suffix after the marker in `c1Creator`. -/
def c1wRaw : List Char := (packPayloadStr c1Payload).data

/-- A stored record with a token hash but no checksum. -/
def c1wRecord : Record := {
  recipient_name := some ("Ann"), course_name := some ("Bio"),
  credentials := some { token_hash := some ("t"), checksum := none } }

theorem C1_witness :
    (verifyFile (some c1Creator) false (fun _ => none) (fun _ => none) none none).verified
      = true
    ∧ (verifyCertificate true (fun _ => some c1wRecord) ("CERT-1w") ("Ann") ("Bio")
        none none).verified = true := by
  have h := C1_degraded_mode c1Creator c1wRaw c1Payload.toJson none none
    (fun _ => none) (fun _ => none) (by decide) rfl (by decide) (by decide) rfl
  exact ⟨by rw [h.1], h.2 (fun _ => some c1wRecord) c1wRecord ("CERT-1w") ("Ann")
    ("Bio") none rfl rfl rfl rfl⟩

/-! ## Claim C8: which identity fields are compared -/

/-- A stored record with a course name on file. -/
def c8Record : Record := {
  certificate_id := some ("CERT-8"),
  recipient_name := some ("Jane Doe"),
  course_name := some ("Python Basics") }

/-- C8 fails on the code: `verify_db` compares `course_name` even when
the caller omits the course (the optional `--course` defaults to
`None`), so a record with a stored course fails with
`Course name mismatch` although the field was never supplied — while
the same call with the stored course supplied verifies. -/
theorem C8_counterexample :
    verifyDb (some c8Record) ("Jane Doe") none none none = "Course name mismatch"
    ∧ verifyDb (some c8Record) ("Jane Doe") (some ("Python Basics")) none none
      = "✓ Certificate VERIFIED" := ⟨by decide, by decide⟩

/-- C8 amended: `verify_db` always compares `recipient_name` and
`course_name` — the course even when the caller supplies none, compared
literally against `None` — exactly and case-sensitively, reporting the
first mismatching field in the order name then course; only the token
check is conditional on the caller supplying a token. -/
theorem C8_field_checks (record : Record) (name : String)
    (course token env : Option String) :
    (record.recipient_name ≠ some name →
      verifyDb (some record) name course token env = "Recipient name mismatch")
    ∧ (record.recipient_name = some name → record.course_name ≠ course →
      verifyDb (some record) name course token env = "Course name mismatch")
    ∧ (record.recipient_name = some name → record.course_name = course →
      verifyDb (some record) name course token env ≠ "Recipient name mismatch"
      ∧ verifyDb (some record) name course token env ≠ "Course name mismatch") := by
  refine ⟨?_, ?_, ?_⟩
  · intro h
    unfold verifyDb
    dsimp only
    rw [if_pos h]
  · intro h1 h2
    unfold verifyDb
    dsimp only
    rw [if_neg (by simp [h1]), if_pos h2]
  · intro h1 h2
    unfold verifyDb
    dsimp only
    rw [if_neg (by simp [h1]), if_neg (by simp [h2])]
    constructor <;> split_ifs <;> simp

theorem C8_witness :
    c8Record.recipient_name = some ("Jane Doe")
    ∧ c8Record.course_name ≠ none
    ∧ verifyDb (some c8Record) ("Jane Doe") none none none = "Course name mismatch" :=
  ⟨rfl, by decide,
    (C8_field_checks c8Record ("Jane Doe") none none none).2.1 rfl (by decide)⟩

/-! ## Claim C10: an empty-string token is never checked -/

/-- A stored record that does hold a token hash but no checksum. -/
def c10Record : Record := {
  recipient_name := some ("Ann"),
  course_name := some ("Biology"),
  credentials := some { token_hash := some ("aa"), checksum := none } }

/-- C10: supplying the empty-string token behaves exactly as supplying
no token — the token argument is tested only for truthiness, so the
token-hash comparison is skipped — and verification can still return a
positive verdict with no token check having run, as the concrete run
against `c10Record` (which has a stored `token_hash`) shows. -/
theorem C10_empty_token (mongoConnected : Bool) (retrieve : String → Option Record)
    (cid name course : String) (env : Option String)
    (record : Option Record) (name2 : String) (course2 env2 : Option String) :
    verifyCertificate mongoConnected retrieve cid name course (some ("")) env
      = verifyCertificate mongoConnected retrieve cid name course none env
    ∧ verifyDb record name2 course2 (some ("")) env2
      = verifyDb record name2 course2 none env2
    ∧ (verifyCertificate true (fun _ => some c10Record) ("CERT-10") ("Ann") ("Biology")
        (some ("")) none).verified = true :=
  ⟨rfl, rfl, by decide⟩

/-! ## Claim C2: canonical-encoding determinism

`JEquiv` relates two `Json` values with identical key/value content
built in different construction orders: equal scalars, pointwise
equivalent arrays, and objects whose member lists agree up to a
permutation with pointwise equivalent values under equal keys
(`JEquivFields` relates a member list to a reordering-free copy with
equivalent values; composing it with `List.Perm` captures an arbitrary
construction order). -/

mutual

inductive JEquiv : Json → Json → Prop where
  | null : JEquiv .null .null
  | bool (b : Bool) : JEquiv (.bool b) (.bool b)
  | num (n : Int) : JEquiv (.num n) (.num n)
  | str (s : String) : JEquiv (.str s) (.str s)
  | arr : ∀ {xs ys : List Json}, JEquivList xs ys → JEquiv (.arr xs) (.arr ys)
  | obj : ∀ {fs mid gs : List (String × Json)},
      JEquivFields fs mid → mid.Perm gs → JEquiv (.obj fs) (.obj gs)

inductive JEquivList : List Json → List Json → Prop where
  | nil : JEquivList [] []
  | cons : ∀ {x y : Json} {xs ys : List Json},
      JEquiv x y → JEquivList xs ys → JEquivList (x :: xs) (y :: ys)

inductive JEquivFields :
    List (String × Json) → List (String × Json) → Prop where
  | nil : JEquivFields [] []
  | cons : ∀ (k : String) {v w : Json} {fs gs : List (String × Json)},
      JEquiv v w → JEquivFields fs gs →
      JEquivFields ((k, v) :: fs) ((k, w) :: gs)

end

theorem wfList_mem : ∀ {xs : List Json}, wfList xs = true →
    ∀ {x : Json}, x ∈ xs → x.wf = true := by
  intro xs hw x hx
  induction xs with
  | nil => cases hx
  | cons a t ih =>
    simp only [wfList, Bool.and_eq_true] at hw
    rcases List.mem_cons.mp hx with h | h
    · exact h ▸ hw.1
    · exact ih hw.2 h

theorem wfFields_mem : ∀ {fs : List (String × Json)}, wfFields fs = true →
    ∀ {kv : String × Json}, kv ∈ fs → kv.2.wf = true := by
  intro fs hw kv hkv
  induction fs with
  | nil => cases hkv
  | cons a t ih =>
    obtain ⟨k, v⟩ := a
    simp only [wfFields, Bool.and_eq_true] at hw
    rcases List.mem_cons.mp hkv with h | h
    · exact h ▸ hw.1
    · exact ih hw.2 h

theorem nodupKeys_iff : ∀ ks : List String, nodupKeys ks = true ↔ ks.Nodup := by
  intro ks
  induction ks with
  | nil => simp [nodupKeys]
  | cons k t ih =>
    simp only [nodupKeys, Bool.and_eq_true, Bool.not_eq_true', List.nodup_cons, ih]
    constructor
    · rintro ⟨h1, h2⟩
      refine ⟨fun hm => ?_, h2⟩
      have h1e : List.elem k t = false := h1
      rw [List.elem_iff.mpr hm] at h1e
      cases h1e
    · rintro ⟨h1, h2⟩
      refine ⟨?_, h2⟩
      show List.elem k t = false
      by_cases hc : List.elem k t = true
      · exact absurd (List.elem_iff.mp hc) h1
      · simpa using hc

theorem encodeFields_eq_map (fs : List (String × Json)) :
    encodeFields fs = fs.map (fun kv => (kv.1, kv.2.encode)) := by
  induction fs with
  | nil => rfl
  | cons kv t ih => obtain ⟨k, v⟩ := kv; simp [encodeFields, ih]

theorem map_fst_encodeFields (fs : List (String × Json)) :
    (encodeFields fs).map Prod.fst = fs.map Prod.fst := by
  rw [encodeFields_eq_map, List.map_map]
  rfl

theorem encodeList_congr (xs : List Json)
    (hIH : ∀ x ∈ xs, ∀ y : Json, x.wf = true → y.wf = true →
      JEquiv x y → x.encode = y.encode) :
    ∀ ys : List Json, wfList xs = true → wfList ys = true →
      JEquivList xs ys → encodeList xs = encodeList ys := by
  induction xs with
  | nil => intro ys _ _ h; cases h; rfl
  | cons x t ih =>
    intro ys hwx hwy h
    cases h with
    | cons hxy hrest =>
      rename_i y ys'
      simp only [wfList, Bool.and_eq_true] at hwx hwy
      simp only [encodeList]
      rw [hIH x (List.mem_cons_self x t) y hwx.1 hwy.1 hxy,
        ih (fun a ha b hwa hwb hab => hIH a (List.mem_cons_of_mem x ha) b hwa hwb hab)
          ys' hwx.2 hwy.2 hrest]

theorem encodeFields_congr (fs : List (String × Json))
    (hIH : ∀ kv ∈ fs, ∀ y : Json, kv.2.wf = true → y.wf = true →
      JEquiv kv.2 y → kv.2.encode = y.encode) :
    ∀ mid : List (String × Json), wfFields fs = true →
      (∀ kv ∈ mid, kv.2.wf = true) → JEquivFields fs mid →
      fs.map Prod.fst = mid.map Prod.fst ∧ encodeFields fs = encodeFields mid := by
  induction fs with
  | nil => intro mid _ _ h; cases h; exact ⟨rfl, rfl⟩
  | cons kv t ih =>
    intro mid hwf hwm h
    cases h with
    | cons k hvw hrest =>
      rename_i v w t'
      simp only [wfFields, Bool.and_eq_true] at hwf
      have hmain := hIH (k, v) (List.mem_cons_self _ t) w hwf.1
        (hwm (k, w) (List.mem_cons_self _ t')) hvw
      obtain ⟨hk, he⟩ := ih
        (fun a ha b hwa hwb hab => hIH a (List.mem_cons_of_mem _ ha) b hwa hwb hab)
        t' hwf.2 (fun a ha => hwm a (List.mem_cons_of_mem _ ha)) hrest
      constructor
      · simp only [List.map_cons, hk]
      · simp only [encodeFields, hmain, he]

theorem pyStrLe_antisymm (a b : String) :
    pyStrLe a b = true → pyStrLe b a = true → a = b := by
  intro h1 h2
  cases a with
  | mk d1 =>
    cases b with
    | mk d2 => exact congrArg String.mk (charsLe_antisymm d1 d2 h1 h2)

theorem eq_of_perm_sorted_nodupKeys :
    ∀ (l1 l2 : List (String × String)), l1.Perm l2 →
      l1.Pairwise keyLe → l2.Pairwise keyLe → (l1.map Prod.fst).Nodup → l1 = l2 := by
  intro l1
  induction l1 with
  | nil =>
    intro l2 hp _ _ _
    exact (hp.symm.eq_nil).symm ▸ rfl
  | cons a t ih =>
    intro l2 hp hs1 hs2 hnd
    cases l2 with
    | nil => exact absurd hp.eq_nil (by simp)
    | cons b t2 =>
      have hndc : (a.1 :: t.map Prod.fst).Nodup := by
        rw [List.map_cons] at hnd
        exact hnd
      have hab : a = b := by
        by_cases h : a = b
        · exact h
        · exfalso
          have hamem : a ∈ b :: t2 := hp.mem_iff.mp (List.mem_cons_self a t)
          have hbmem : b ∈ a :: t := hp.mem_iff.mpr (List.mem_cons_self b t2)
          have ha2 : a ∈ t2 := by
            rcases List.mem_cons.mp hamem with h' | h'
            · exact absurd h' h
            · exact h'
          have hb2 : b ∈ t := by
            rcases List.mem_cons.mp hbmem with h' | h'
            · exact absurd h'.symm h
            · exact h'
          have hle1 : keyLe a b := (List.pairwise_cons.mp hs1).1 b hb2
          have hle2 : keyLe b a := (List.pairwise_cons.mp hs2).1 a ha2
          have hkey : a.1 = b.1 := pyStrLe_antisymm a.1 b.1 hle1 hle2
          have hnd' := List.nodup_cons.mp hndc
          exact hnd'.1 (hkey ▸ List.mem_map_of_mem Prod.fst hb2)
      subst hab
      have hrest : t.Perm t2 := hp.cons_inv
      have := ih t2 hrest (List.pairwise_cons.mp hs1).2 (List.pairwise_cons.mp hs2).2
        (List.nodup_cons.mp hndc).2
      rw [this]

theorem sortPairs_eq_of_perm (l1 l2 : List (String × String))
    (h : l1.Perm l2) (hnd : (l1.map Prod.fst).Nodup) :
    sortPairs l1 = sortPairs l2 := by
  apply eq_of_perm_sorted_nodupKeys
  · exact (List.perm_insertionSort keyLe l1).trans
      (h.trans (List.perm_insertionSort keyLe l2).symm)
  · exact List.sorted_insertionSort keyLe l1
  · exact List.sorted_insertionSort keyLe l2
  · exact (((List.perm_insertionSort keyLe l1).map Prod.fst).nodup_iff).mpr hnd

theorem encode_respects_aux :
    ∀ (n : Nat) (a b : Json), sizeOf a ≤ n → a.wf = true → b.wf = true →
      JEquiv a b → a.encode = b.encode := by
  intro n
  induction n with
  | zero =>
    intro a b hle _ _ _
    cases a <;> simp at hle
  | succ n ih =>
    intro a b hle ha hb h
    cases h with
    | null => rfl
    | bool b0 => rfl
    | num n0 => rfl
    | str s => rfl
    | arr hl =>
      rename_i xs ys
      have hwx : wfList xs = true := by simpa [Json.wf] using ha
      have hwy : wfList ys = true := by simpa [Json.wf] using hb
      have he : encodeList xs = encodeList ys := by
        apply encodeList_congr xs ?_ ys hwx hwy hl
        intro x hx y hwxx hwyy hxy
        apply ih x y ?_ hwxx hwyy hxy
        have h1 := List.sizeOf_lt_of_mem hx
        have h2 : sizeOf (Json.arr xs) = 1 + sizeOf xs := by simp
        omega
      simp only [Json.encode, he]
    | obj hf hperm =>
      rename_i fs mid gs
      have haf : nodupKeys (fs.map Prod.fst) = true ∧ wfFields fs = true := by
        simpa [Json.wf, Bool.and_eq_true] using ha
      have hbf : nodupKeys (gs.map Prod.fst) = true ∧ wfFields gs = true := by
        simpa [Json.wf, Bool.and_eq_true] using hb
      have hwm : ∀ kv ∈ mid, kv.2.wf = true := fun kv hm =>
        wfFields_mem hbf.2 (hperm.mem_iff.mp hm)
      have hIH2 : ∀ kv ∈ fs, ∀ y : Json, kv.2.wf = true → y.wf = true →
          JEquiv kv.2 y → kv.2.encode = y.encode := by
        intro kv hkv y hw1 hw2 hxy
        apply ih kv.2 y ?_ hw1 hw2 hxy
        have h1 := List.sizeOf_lt_of_mem hkv
        have h2 : sizeOf (Json.obj fs) = 1 + sizeOf fs := by simp
        have h3 : sizeOf kv.2 < sizeOf kv := by
          obtain ⟨k, v⟩ := kv
          simp
        omega
      obtain ⟨hkeys, henc⟩ := encodeFields_congr fs hIH2 mid haf.2 hwm hf
      have hs : sortPairs (encodeFields mid) = sortPairs (encodeFields gs) := by
        apply sortPairs_eq_of_perm
        · rw [encodeFields_eq_map mid, encodeFields_eq_map gs]
          exact hperm.map _
        · rw [map_fst_encodeFields, ← hkeys]
          exact (nodupKeys_iff _).mp haf.1
      simp only [Json.encode, henc, hs]

theorem encode_respects (a b : Json) (ha : a.wf = true) (hb : b.wf = true)
    (h : JEquiv a b) : a.encode = b.encode :=
  encode_respects_aux (sizeOf a) a b (Nat.le_refl _) ha hb h

/-- C2: for every two well-formed field sets (distinct keys at every
nesting level, as Python dictionaries guarantee) with identical
key/value content regardless of construction order, the canonical
encoding used as HMAC input produces identical strings — object keys
being sorted at every nesting level — and consequently the checksum is
a deterministic function of the content and the secret. -/
theorem C2_encode_deterministic (a b : Json) (ha : a.wf = true) (hb : b.wf = true) (h : JEquiv a b) :
    Json.encode a = Json.encode b
    ∧ ∀ secret env : Option String,
        HiddenMetadata.generate_checksum a secret env
          = HiddenMetadata.generate_checksum b secret env := by
  have he := encode_respects a b ha hb h
  refine ⟨he, fun secret env => ?_⟩
  unfold HiddenMetadata.generate_checksum
  rw [he]


/-- A nested object in one construction order. -/
def c2J1 : Json :=
  .obj [(("b"), .obj [(("y"), .str ("1")), (("x"), .str ("2"))]), (("a"), .null)]

/-- The same content built in the opposite order at both levels. -/
def c2J2 : Json :=
  .obj [(("a"), .null), (("b"), .obj [(("x"), .str ("2")), (("y"), .str ("1"))])]

theorem c2JEquiv : JEquiv c2J1 c2J2 := by
  unfold c2J1 c2J2
  apply @JEquiv.obj _
    [(("b"), Json.obj [(("x"), .str ("2")), (("y"), .str ("1"))]), (("a"), Json.null)] _
  · apply JEquivFields.cons ("b")
    · apply @JEquiv.obj _ [(("y"), Json.str ("1")), (("x"), Json.str ("2"))] _
      · exact JEquivFields.cons ("y") (JEquiv.str ("1"))
          (JEquivFields.cons ("x") (JEquiv.str ("2")) JEquivFields.nil)
      · exact List.Perm.swap _ _ _
    · exact JEquivFields.cons ("a") JEquiv.null JEquivFields.nil
  · exact List.Perm.swap _ _ _

theorem C2_witness :
    c2J1.wf = true ∧ c2J2.wf = true ∧ JEquiv c2J1 c2J2
    ∧ Json.encode c2J1 = Json.encode c2J2 :=
  ⟨by decide, by decide, c2JEquiv,
    (C2_encode_deterministic c2J1 c2J2 (by decide) (by decide) c2JEquiv).1⟩

/-! ## Claim C7: unpack never raises and recovers in the stated order -/

/-- The recovery step as the specification words it. -/
def braceRecoverySpec (raw : List Char) : Option Json :=
  match pyFindIdx '\x7b' raw, pyRFindIdx '\x7d' raw with
  | some start, some stop =>
    parseJsonChars ((raw.drop start).take (stop + 1 - start))
  | _, _ => none

theorem splitAfterMarker_none_iff (l : List Char) :
    splitAfterMarker l = none ↔ ¬ certGenMarker <:+: l := by
  induction l with
  | nil => simp [splitAfterMarker, List.infix_nil, certGenMarker]
  | cons c t ih =>
    simp only [splitAfterMarker]
    by_cases hp : certGenMarker.isPrefixOf (c :: t) = true
    · rw [if_pos hp]
      constructor
      · intro h
        exact absurd h (by simp)
      · intro hni
        exact absurd (List.IsPrefix.isInfix (List.isPrefixOf_iff_prefix.mp hp)) hni
    · rw [if_neg hp, ih, List.infix_cons_iff]
      constructor
      · intro h hor
        rcases hor with h1 | h1
        · exact hp (List.isPrefixOf_iff_prefix.mpr h1)
        · exact h h1
      · intro h h1
        exact h (Or.inr h1)

/-- C7: `unpack` is a total function of the carrier (every parser
exception is caught; the only exits of `extract_payload_from_pdf`
beyond them concern a missing file or library, outside this model):
when the marker is absent it returns `NotFound`; otherwise it attempts
a strict parse of everything after the marker; on parse failure it
re-attempts on the slice from the first opening brace to the last
closing brace exactly as `braceRecoverySpec` words it; and it returns
`NotFound` when that recovery also fails. -/
theorem C7_unpack_total (creator : String) :
    (¬ certGenMarker <:+: creator.data → extract_payload_from_creator creator = none)
    ∧ ∀ raw : List Char, splitAfterMarker creator.data = some raw →
      (∀ p : Json, parseJsonChars raw = some p →
        extract_payload_from_creator creator = some p)
      ∧ (parseJsonChars raw = none →
        extract_payload_from_creator creator = braceRecoverySpec raw)
      ∧ (parseJsonChars raw = none → braceRecoverySpec raw = none →
        extract_payload_from_creator creator = none) := by
  constructor
  · intro h
    unfold extract_payload_from_creator
    rw [(splitAfterMarker_none_iff creator.data).mpr h]
  · intro raw hr
    refine ⟨?_, ?_, ?_⟩
    · intro p hp
      unfold extract_payload_from_creator
      rw [hr]
      dsimp only
      rw [hp]
    · intro hp
      unfold extract_payload_from_creator
      rw [hr]
      dsimp only
      rw [hp]
      rfl
    · intro hp hb
      unfold extract_payload_from_creator
      rw [hr]
      dsimp only
      rw [hp]
      exact hb

theorem C7_witness :
    extract_payload_from_creator ("abc") = none
    ∧ extract_payload_from_creator (String.mk (certGenMarker ++ ['n', 'u', 'l', 'l']))
      = some Json.null
    ∧ extract_payload_from_creator (String.mk (certGenMarker ++ ['x'])) = none := by
  refine ⟨(C7_unpack_total ("abc")).1 (by decide), ?_, ?_⟩
  · exact (((C7_unpack_total _).2 ['n', 'u', 'l', 'l'] (by decide)).1 Json.null rfl)
  · exact (((C7_unpack_total _).2 ['x'] (by decide)).2.2 rfl rfl)

/-- The escaped character sequence of a string body. -/
def escChars (cs : List Char) : List Char :=
  (cs.map jsonEscapeChar).flatten

/-- The characters of a rendered payload value: `null`, or a quoted
escaped string. -/
def optValChars : Option String → List Char
  | none => litNull
  | some s => '"' :: (escChars s.data ++ ['"'])

theorem hexDigitVal_hexDigitChar : ∀ d : Nat, d < 16 →
    hexDigitVal (hexDigitChar d) = some d := by decide

theorem hexQuadVal_hexQuadChars (n : Nat) (h : n < 65536) :
    hexQuadVal (hexDigitChar (n / 4096 % 16)) (hexDigitChar (n / 256 % 16))
      (hexDigitChar (n / 16 % 16)) (hexDigitChar (n % 16)) = some n := by
  rw [hexQuadVal, hexDigitVal_hexDigitChar _ (by omega),
    hexDigitVal_hexDigitChar _ (by omega), hexDigitVal_hexDigitChar _ (by omega),
    hexDigitVal_hexDigitChar _ (by omega)]
  dsimp only
  have he : n / 4096 % 16 * 4096 + n / 256 % 16 * 256 + n / 16 % 16 * 16 + n % 16 = n := by
    omega
  rw [he]

theorem char_not_surrogate (c : Char) : c.toNat < 55296 ∨ 57343 < c.toNat := by
  have h := c.valid
  have he : c.toNat = c.val.toNat := rfl
  rcases h with h | h
  · left; omega
  · right; omega

theorem char_lt (c : Char) : c.toNat < 1114112 := by
  have h := c.valid
  have he : c.toNat = c.val.toNat := rfl
  rcases h with h | h
  · omega
  · omega

theorem ps_quote (l : List Char) : parseStringBody ('"' :: l) = some ([], l) := by
  rw [parseStringBody]
  rw [if_pos rfl]

theorem ps_lit (c : Char) (l : List Char) (h1 : ¬c = '"') (h2 : ¬c = '\\')
    (h3 : ¬c.toNat < 32) :
    parseStringBody (c :: l) = (parseStringBody l).map (fun r => (c :: r.1, r.2)) := by
  rw [parseStringBody]
  rw [if_neg h1, if_neg h2, if_neg h3]

theorem ps_esc (l : List Char) :
    parseStringBody ('\\' :: l) = parseStringEsc l := by
  rw [parseStringBody]
  rw [if_neg (by decide), if_pos rfl]

theorem ps_esc_simple (e ch : Char) (l : List Char) (hu : ¬e = 'u')
    (hc : unescapeChar e = some ch) :
    parseStringEsc (e :: l) = (parseStringBody l).map (fun r => (ch :: r.1, r.2)) := by
  rw [parseStringEsc]
  rw [if_neg hu, hc]

theorem ps_u_bmp (a b c2 d : Char) (l : List Char) (n : Nat)
    (hq : hexQuadVal a b c2 d = some n) (hlo : ¬55296 ≤ n ∨ ¬n ≤ 56319)
    (hnotlow : ¬56320 ≤ n ∨ ¬n ≤ 57343) :
    parseStringU (a :: b :: c2 :: d :: l)
      = (parseStringBody l).map (fun r => (Char.ofNat n :: r.1, r.2)) := by
  rw [parseStringU, hq]
  dsimp only
  rw [if_neg (by rcases hlo with h | h <;> simp [h]),
    if_neg (by rcases hnotlow with h | h <;> simp [h])]

theorem ps_u_pair (a b c2 d : Char) (l : List Char) (n : Nat)
    (hq : hexQuadVal a b c2 d = some n) (h1 : 55296 ≤ n) (h2 : n ≤ 56319) :
    parseStringU (a :: b :: c2 :: d :: l) = parseStringLow n l := by
  rw [parseStringU, hq]
  dsimp only
  rw [if_pos (by simp [h1, h2])]

theorem ps_low (n m : Nat) (a2 b2 c3 d2 : Char) (l : List Char)
    (hq : hexQuadVal a2 b2 c3 d2 = some m) (h1 : 56320 ≤ m) (h2 : m ≤ 57343) :
    parseStringLow n ('\\' :: 'u' :: a2 :: b2 :: c3 :: d2 :: l)
      = (parseStringBody l).map (fun r =>
          (Char.ofNat (65536 + (n - 55296) * 1024 + (m - 56320)) :: r.1, r.2)) := by
  rw [parseStringLow]
  rw [if_pos rfl, if_pos rfl, hq]
  dsimp only
  rw [if_pos (by simp [h1, h2])]

theorem parseStringBody_escape (c : Char) (rest : List Char) :
    parseStringBody (jsonEscapeChar c ++ rest)
      = (parseStringBody rest).map (fun r => (c :: r.1, r.2)) := by
  unfold jsonEscapeChar
  by_cases h1 : c = '"'
  · subst h1
    rw [if_pos rfl]
    simp only [List.cons_append, List.nil_append]
    rw [ps_esc, ps_esc_simple '"' ('"') rest (by decide) (by decide)]
  · rw [if_neg h1]
    by_cases h2 : c = '\\'
    · subst h2
      rw [if_pos rfl]
      simp only [List.cons_append, List.nil_append]
      rw [ps_esc, ps_esc_simple '\\' ('\\') rest (by decide) (by decide)]
    · rw [if_neg h2]
      by_cases h3 : c = Char.ofNat 8
      · subst h3
        rw [if_pos rfl]
        simp only [List.cons_append, List.nil_append]
        rw [ps_esc, ps_esc_simple 'b' (Char.ofNat 8) rest (by decide) (by decide)]
      · rw [if_neg h3]
        by_cases h4 : c = Char.ofNat 12
        · subst h4
          rw [if_pos rfl]
          simp only [List.cons_append, List.nil_append]
          rw [ps_esc, ps_esc_simple 'f' (Char.ofNat 12) rest (by decide) (by decide)]
        · rw [if_neg h4]
          by_cases h5 : c = '\n'
          · subst h5
            rw [if_pos rfl]
            simp only [List.cons_append, List.nil_append]
            rw [ps_esc, ps_esc_simple 'n' ('\n') rest (by decide) (by decide)]
          · rw [if_neg h5]
            by_cases h6 : c = Char.ofNat 13
            · subst h6
              rw [if_pos rfl]
              simp only [List.cons_append, List.nil_append]
              rw [ps_esc, ps_esc_simple 'r' (Char.ofNat 13) rest (by decide) (by decide)]
            · rw [if_neg h6]
              by_cases h7 : c = '\t'
              · subst h7
                rw [if_pos rfl]
                simp only [List.cons_append, List.nil_append]
                rw [ps_esc, ps_esc_simple 't' ('\t') rest (by decide) (by decide)]
              · rw [if_neg h7]
                by_cases h8 : c.toNat < 32
                · rw [if_pos h8]
                  simp only [hexQuadChars, List.cons_append, List.nil_append]
                  rw [ps_esc]
                  rw [show ∀ x : List Char, parseStringEsc ('u' :: x) = parseStringU x from
                    fun x => by rw [parseStringEsc]; rw [if_pos rfl]]
                  rw [ps_u_bmp _ _ _ _ _ c.toNat
                    (hexQuadVal_hexQuadChars c.toNat (by omega))
                    (Or.inl (by omega)) (Or.inl (by omega)), Char.ofNat_toNat]
                · rw [if_neg h8]
                  by_cases h9 : c.toNat < 127
                  · rw [if_pos h9]
                    simp only [List.cons_append, List.nil_append]
                    rw [ps_lit c rest h1 h2 h8]
                  · rw [if_neg h9]
                    by_cases h10 : c.toNat < 65536
                    · rw [if_pos h10]
                      simp only [hexQuadChars, List.cons_append, List.nil_append]
                      rw [ps_esc]
                      rw [show ∀ x : List Char, parseStringEsc ('u' :: x) = parseStringU x from
                        fun x => by rw [parseStringEsc]; rw [if_pos rfl]]
                      rcases char_not_surrogate c with hs | hs
                      · rw [ps_u_bmp _ _ _ _ _ c.toNat
                          (hexQuadVal_hexQuadChars c.toNat (by omega))
                          (Or.inl (by omega)) (Or.inl (by omega)), Char.ofNat_toNat]
                      · rw [ps_u_bmp _ _ _ _ _ c.toNat
                          (hexQuadVal_hexQuadChars c.toNat (by omega))
                          (Or.inr (by omega)) (Or.inr (by omega)), Char.ofNat_toNat]
                    · rw [if_neg h10]
                      have hv := char_lt c
                      simp only [hexQuadChars, List.cons_append, List.nil_append,
                        List.append_assoc]
                      rw [ps_esc]
                      rw [show ∀ x : List Char, parseStringEsc ('u' :: x) = parseStringU x from
                        fun x => by rw [parseStringEsc]; rw [if_pos rfl]]
                      rw [ps_u_pair _ _ _ _ _ (55296 + (c.toNat - 65536) / 1024)
                        (hexQuadVal_hexQuadChars _ (by omega)) (by omega) (by omega)]
                      rw [ps_low _ (56320 + (c.toNat - 65536) % 1024) _ _ _ _ _
                        (hexQuadVal_hexQuadChars _ (by omega)) (by omega) (by omega)]
                      have harith : 65536 + (55296 + (c.toNat - 65536) / 1024 - 55296) * 1024
                          + (56320 + (c.toNat - 65536) % 1024 - 56320) = c.toNat := by
                        omega
                      rw [harith, Char.ofNat_toNat]

theorem parseStringBody_escChars : ∀ (cs rest : List Char),
    parseStringBody (escChars cs ++ '"' :: rest) = some (cs, rest) := by
  intro cs
  induction cs with
  | nil =>
    intro rest
    show parseStringBody (([] : List Char) ++ '"' :: rest) = _
    rw [List.nil_append]
    exact ps_quote rest
  | cons c t ih =>
    intro rest
    have he : escChars (c :: t) = jsonEscapeChar c ++ escChars t := by
      simp [escChars]
    rw [he, List.append_assoc, parseStringBody_escape, ih]
    rfl

theorem skipWs_cons (c : Char) (l : List Char) (h : isJsonWs c = false) :
    skipWs (c :: l) = c :: l := by
  rw [skipWs]
  rw [if_neg (by simp [h])]

theorem pv_null (f : Nat) (rest : List Char) :
    parseValue (f + 1) (litNull ++ rest) = some (.null, rest) := by
  show parseValue (f + 1) ('n' :: 'u' :: 'l' :: 'l' :: rest) = _
  rw [parseValue]
  rw [if_neg (by decide), if_neg (by decide), if_neg (by decide),
    if_pos (by simp [litNull, List.isPrefixOf])]
  rfl

theorem pv_str (f : Nat) (s : String) (rest : List Char) :
    parseValue (f + 1) ('"' :: (escChars s.data ++ '"' :: rest))
      = some (.str s, rest) := by
  rw [parseValue]
  rw [if_pos rfl, parseStringBody_escChars]
  have hm : String.mk s.data = s := by cases s; rfl
  simp [hm]

theorem pv_opt (f : Nat) (v : Option String) (rest : List Char) :
    parseValue (f + 1) (optValChars v ++ rest) = some (optJson v, rest) := by
  cases v with
  | none => exact pv_null f rest
  | some s =>
    show parseValue (f + 1) (('"' :: (escChars s.data ++ ['"'])) ++ rest) = _
    simp only [List.cons_append, List.append_assoc, List.singleton_append]
    exact pv_str f s rest

theorem skipWs_optVal (v : Option String) (t : List Char) :
    skipWs (optValChars v ++ t) = optValChars v ++ t := by
  cases v with
  | none => exact skipWs_cons 'n' _ (by decide)
  | some s => exact skipWs_cons '"' _ (by decide)

theorem pm_last (f : Nat) (k : String) (v : Option String) (rest : List Char) :
    parseMembers (f + 2)
      ('"' :: (escChars k.data ++ '"' :: ':' :: (optValChars v ++ '\x7d' :: rest)))
      = some ([(k, optJson v)], rest) := by
  rw [parseMembers]
  rw [if_pos rfl, parseStringBody_escChars]
  dsimp only
  rw [skipWs_cons ':' _ (by decide)]
  dsimp only
  rw [if_pos rfl]
  rw [skipWs_optVal, pv_opt]
  dsimp only
  rw [skipWs_cons '\x7d' _ (by decide)]
  dsimp only
  rw [if_neg (by decide), if_pos rfl]

theorem pm_cons (f : Nat) (k : String) (v : Option String) (more : List Char) :
    parseMembers (f + 2)
      ('"' :: (escChars k.data ++ '"' :: ':' :: (optValChars v ++ ',' :: more)))
      = (parseMembers (f + 1) (skipWs more)).map
          (fun r => ((k, optJson v) :: r.1, r.2)) := by
  rw [parseMembers]
  rw [if_pos rfl, parseStringBody_escChars]
  dsimp only
  rw [skipWs_cons ':' _ (by decide)]
  dsimp only
  rw [if_pos rfl]
  rw [skipWs_optVal, pv_opt]
  dsimp only
  rw [skipWs_cons ',' _ (by decide)]
  dsimp only
  rw [if_pos rfl]

theorem packChars_eq (v1 v2 v3 : Option String) :
    (packPayloadStr ⟨v1, v2, v3⟩).data
      = '\x7b' :: '"' :: 'i' :: 'd' :: '"' :: ':' ::
        (optValChars v1 ++ ',' :: '"' :: 't' :: 'o' :: 'k' :: 'e' :: 'n' :: '_' ::
          'h' :: 'a' :: 's' :: 'h' :: '"' :: ':' ::
        (optValChars v2 ++ ',' :: '"' :: 'c' :: 'h' :: 'e' :: 'c' :: 'k' :: 's' ::
          'u' :: 'm' :: '"' :: ':' ::
        (optValChars v3 ++ ['\x7d']))) := by
  cases v1 <;> cases v2 <;> cases v3 <;>
    simp +decide [packPayloadStr, Payload.toJson, Json.encodeC, encodeFieldsC,
      renderMemberC, String.intercalate, String.intercalate.go, jsonEscapeChar,
      sepItemC, sepKeyC, jsonQuote, jsonQuoteChars,
      optJson, optValChars, escChars, litNull, String.data_append, List.append_assoc]

theorem pm_id (f : Nat) (v : Option String) (more : List Char) :
    parseMembers (f + 2)
      ('"' :: 'i' :: 'd' :: '"' :: ':' :: (optValChars v ++ ',' :: more))
      = (parseMembers (f + 1) (skipWs more)).map
          (fun r => ((("id"), optJson v) :: r.1, r.2)) :=
  pm_cons f ("id") v more

theorem pm_th (f : Nat) (v : Option String) (more : List Char) :
    parseMembers (f + 2)
      ('"' :: 't' :: 'o' :: 'k' :: 'e' :: 'n' :: '_' :: 'h' :: 'a' :: 's' :: 'h' ::
        '"' :: ':' :: (optValChars v ++ ',' :: more))
      = (parseMembers (f + 1) (skipWs more)).map
          (fun r => ((("token_hash"), optJson v) :: r.1, r.2)) :=
  pm_cons f ("token_hash") v more

theorem pm_ck (f : Nat) (v : Option String) (rest : List Char) :
    parseMembers (f + 2)
      ('"' :: 'c' :: 'h' :: 'e' :: 'c' :: 'k' :: 's' :: 'u' :: 'm' :: '"' :: ':' ::
        (optValChars v ++ '\x7d' :: rest))
      = some ([(("checksum"), optJson v)], rest) :=
  pm_last f ("checksum") v rest

theorem parseValue_pack (f : Nat) (v1 v2 v3 : Option String) (rest : List Char) :
    parseValue (f + 5) ((packPayloadStr ⟨v1, v2, v3⟩).data ++ rest)
      = some (Payload.toJson ⟨v1, v2, v3⟩, rest) := by
  rw [packChars_eq]
  simp only [List.cons_append, List.append_assoc, List.singleton_append]
  rw [parseValue]
  rw [if_neg (by decide), if_pos rfl]
  rw [skipWs_cons '"' _ (by decide)]
  dsimp only
  rw [if_neg (by decide)]
  rw [pm_id (f + 2)]
  rw [skipWs_cons '"' _ (by decide)]
  rw [pm_th (f + 1)]
  rw [skipWs_cons '"' _ (by decide)]
  rw [pm_ck f]
  rfl

theorem parseJsonChars_pack (v1 v2 v3 : Option String) :
    parseJsonChars (packPayloadStr ⟨v1, v2, v3⟩).data
      = some (Payload.toJson ⟨v1, v2, v3⟩) := by
  have hsk : skipWs (packPayloadStr ⟨v1, v2, v3⟩).data
      = (packPayloadStr ⟨v1, v2, v3⟩).data := by
    rw [packChars_eq]
    exact skipWs_cons '\x7b' _ (by decide)
  have hlen : 2 ≤ (packPayloadStr ⟨v1, v2, v3⟩).data.length := by
    rw [packChars_eq]
    simp [List.length_cons]
  have hfuel : 2 * (packPayloadStr ⟨v1, v2, v3⟩).data.length + 2
      = (2 * (packPayloadStr ⟨v1, v2, v3⟩).data.length - 3) + 5 := by omega
  have hpv := parseValue_pack
    (2 * (packPayloadStr ⟨v1, v2, v3⟩).data.length - 3) v1 v2 v3 []
  rw [List.append_nil] at hpv
  unfold parseJsonChars
  dsimp only
  rw [hsk, hfuel, hpv]
  rfl

theorem splitAfterMarker_append (X : List Char) :
    splitAfterMarker (certGenMarker ++ X) = some X := by
  show splitAfterMarker
    ('C' :: 'e' :: 'r' :: 't' :: 'G' :: 'e' :: 'n' :: '|' :: X) = some X
  rw [splitAfterMarker]
  rw [if_pos (by rw [List.isPrefixOf_iff_prefix]; exact ⟨X, rfl⟩)]
  rfl

/-- C6: round-trip packing.  For every payload whose compact JSON pack
fits inside the 200-character truncation cut applied after the
`CertGen|` marker, extracting from the embedded carrier recovers
exactly the original payload dictionary, and the payload is uniquely
determined by that dictionary. -/
theorem C6_roundtrip (p : Payload) (h : (packPayloadStr p).length ≤ 200) :
    extract_payload_from_creator (embedCreator p) = some p.toJson ∧
    ∀ q : Payload, p.toJson = q.toJson → p = q := by
  obtain ⟨v1, v2, v3⟩ := p
  constructor
  · have hd : (embedCreator ⟨v1, v2, v3⟩).data
        = certGenMarker ++ (packPayloadStr ⟨v1, v2, v3⟩).data := by
      unfold embedCreator pyTake
      rw [String.data_append]
      have ht : (packPayloadStr ⟨v1, v2, v3⟩).data.take 200
          = (packPayloadStr ⟨v1, v2, v3⟩).data := List.take_of_length_le h
      rw [ht]
    unfold extract_payload_from_creator
    rw [hd, splitAfterMarker_append]
    dsimp only
    rw [parseJsonChars_pack]
  · intro q hq
    obtain ⟨b1, b2, b3⟩ := q
    have hinj : ∀ a b : Option String, optJson a = optJson b → a = b := by
      intro a b hab
      cases a <;> cases b <;> simp_all [optJson]
    simp only [Payload.toJson, Json.obj.injEq, List.cons.injEq, Prod.mk.injEq,
      and_true, true_and, List.cons_ne_nil] at hq
    obtain ⟨h1, h2, h3⟩ := hq
    rw [hinj _ _ h1, hinj _ _ h2, hinj _ _ h3]

/-- C6 at a concrete payload: the carrier embeds and extracts back. -/
theorem C6_witness :
    (packPayloadStr ⟨some ("CERT-1234-ABCD"), some ("aa11bb22cc33dd44"),
        some ("0123456789abcdef")⟩).length ≤ 200 ∧
    extract_payload_from_creator (embedCreator ⟨some ("CERT-1234-ABCD"),
        some ("aa11bb22cc33dd44"), some ("0123456789abcdef")⟩)
      = some (Payload.toJson ⟨some ("CERT-1234-ABCD"),
        some ("aa11bb22cc33dd44"), some ("0123456789abcdef")⟩) :=
  ⟨by decide, (C6_roundtrip ⟨some ("CERT-1234-ABCD"), some ("aa11bb22cc33dd44"),
    some ("0123456789abcdef")⟩ (by decide)).1⟩
